import Mathlib

/-!
Verification development for the Meister-Eder conversational registration
agent.  The Python source is shallowly embedded: JSON / Python values are
modelled by the `Json` inductive, Python dicts by ordered association lists,
and the stateful agent methods by explicit state-passing functions that
return the new state together with the list of issued side effects.
-/

namespace MeisterEder

/-- JSON / dynamic Python values as they flow through the agent.  Python's
`None` and JSON `null` are identified (`json.loads` decodes `null` to `None`).
Numbers are modelled as integers; no code path under scrutiny produces
fractional JSON numbers. -/
inductive Json where
  | null : Json
  | bool (b : Bool) : Json
  | num (n : Int) : Json
  | str (s : String) : Json
  | arr (xs : List Json) : Json
  | obj (kvs : List (String × Json)) : Json
  deriving Repr

mutual

/-- Structural equality test on `Json` (Python `==` on these values). -/
def Json.beq : Json → Json → Bool
  | .null, .null => true
  | .bool a, .bool b => a == b
  | .num a, .num b => a == b
  | .str a, .str b => a == b
  | .arr xs, .arr ys => Json.beqList xs ys
  | .obj xs, .obj ys => Json.beqObj xs ys
  | _, _ => false

def Json.beqList : List Json → List Json → Bool
  | [], [] => true
  | x :: xs, y :: ys => Json.beq x y && Json.beqList xs ys
  | _, _ => false

def Json.beqObj : List (String × Json) → List (String × Json) → Bool
  | [], [] => true
  | (k1, v1) :: xs, (k2, v2) :: ys => k1 == k2 && Json.beq v1 v2 && Json.beqObj xs ys
  | _, _ => false

end

theorem Json.eq_of_beq_sized :
    ∀ (n : Nat) (a b : Json), sizeOf a ≤ n → Json.beq a b = true → a = b := by
  intro n
  induction n with
  | zero =>
    intro a b hs
    cases a <;> simp at hs
  | succ n ih =>
    have listStep : ∀ xs ys : List Json, (∀ x ∈ xs, sizeOf x ≤ n) →
        Json.beqList xs ys = true → xs = ys := by
      intro xs
      induction xs with
      | nil =>
        intro ys _ h
        cases ys with
        | nil => rfl
        | cons y ys => simp [Json.beqList] at h
      | cons x xs ihx =>
        intro ys hall h
        cases ys with
        | nil => simp [Json.beqList] at h
        | cons y ys =>
          simp only [Json.beqList, Bool.and_eq_true] at h
          have hx : x = y := ih x y (hall x (by simp)) h.1
          have hxs : xs = ys := ihx ys (fun z hz => hall z (by simp [hz])) h.2
          rw [hx, hxs]
    have objStep : ∀ xs ys : List (String × Json), (∀ kv ∈ xs, sizeOf kv.2 ≤ n) →
        Json.beqObj xs ys = true → xs = ys := by
      intro xs
      induction xs with
      | nil =>
        intro ys _ h
        cases ys with
        | nil => rfl
        | cons y ys =>
          obtain ⟨k2, v2⟩ := y
          simp [Json.beqObj] at h
      | cons x xs ihx =>
        intro ys hall h
        obtain ⟨k1, v1⟩ := x
        cases ys with
        | nil => simp [Json.beqObj] at h
        | cons y ys =>
          obtain ⟨k2, v2⟩ := y
          simp only [Json.beqObj, Bool.and_eq_true, beq_iff_eq] at h
          have hv : v1 = v2 := ih v1 v2 (hall (k1, v1) (by simp)) h.1.2
          have hxs : xs = ys := ihx ys (fun z hz => hall z (by simp [hz])) h.2
          rw [h.1.1, hv, hxs]
    intro a b hs h
    cases a <;> cases b
    case null.null => rfl
    case bool.bool x y => simpa [Json.beq] using h
    case num.num x y => simpa [Json.beq] using h
    case str.str x y => simpa [Json.beq] using h
    case arr.arr xs ys =>
      have hall : ∀ x ∈ xs, sizeOf x ≤ n := by
        intro x hx
        have h1 : sizeOf x < sizeOf xs := List.sizeOf_lt_of_mem hx
        have h2 : sizeOf (Json.arr xs) = 1 + sizeOf xs := by simp
        omega
      rw [listStep xs ys hall (by simpa [Json.beq] using h)]
    case obj.obj xs ys =>
      have hall : ∀ kv ∈ xs, sizeOf kv.2 ≤ n := by
        intro kv hkv
        have h1 : sizeOf kv < sizeOf xs := List.sizeOf_lt_of_mem hkv
        obtain ⟨k, v⟩ := kv
        have h2 : sizeOf (Json.obj xs) = 1 + sizeOf xs := by simp
        have h3 : sizeOf (k, v) = 1 + sizeOf k + sizeOf v := by simp
        simp only at h1 h3 ⊢
        omega
      rw [objStep xs ys hall (by simpa [Json.beq] using h)]
    all_goals simp [Json.beq] at h

theorem Json.beq_refl : ∀ a : Json, Json.beq a a = true := by
  have main : ∀ (n : Nat) (a : Json), sizeOf a ≤ n → Json.beq a a = true := by
    intro n
    induction n with
    | zero =>
      intro a hs
      cases a <;> simp at hs
    | succ n ih =>
      have listStep : ∀ xs : List Json, (∀ x ∈ xs, sizeOf x ≤ n) →
          Json.beqList xs xs = true := by
        intro xs
        induction xs with
        | nil => intro _; simp [Json.beqList]
        | cons x xs ihx =>
          intro hall
          simp only [Json.beqList, Bool.and_eq_true]
          exact ⟨ih x (hall x (by simp)), ihx (fun z hz => hall z (by simp [hz]))⟩
      have objStep : ∀ kvs : List (String × Json), (∀ kv ∈ kvs, sizeOf kv.2 ≤ n) →
          Json.beqObj kvs kvs = true := by
        intro kvs
        induction kvs with
        | nil => intro _; simp [Json.beqObj]
        | cons kv kvs ihx =>
          intro hall
          obtain ⟨k, v⟩ := kv
          simp only [Json.beqObj, Bool.and_eq_true, beq_self_eq_true, true_and]
          exact ⟨ih v (hall (k, v) (by simp)), ihx (fun z hz => hall z (by simp [hz]))⟩
      intro a hs
      cases a
      case null => simp [Json.beq]
      case bool b => simp [Json.beq]
      case num m => simp [Json.beq]
      case str s => simp [Json.beq]
      case arr xs =>
        have hall : ∀ x ∈ xs, sizeOf x ≤ n := by
          intro x hx
          have h1 : sizeOf x < sizeOf xs := List.sizeOf_lt_of_mem hx
          have h2 : sizeOf (Json.arr xs) = 1 + sizeOf xs := by simp
          omega
        simpa [Json.beq] using listStep xs hall
      case obj kvs =>
        have hall : ∀ kv ∈ kvs, sizeOf kv.2 ≤ n := by
          intro kv hkv
          have h1 : sizeOf kv < sizeOf kvs := List.sizeOf_lt_of_mem hkv
          obtain ⟨k, v⟩ := kv
          have h2 : sizeOf (Json.obj kvs) = 1 + sizeOf kvs := by simp
          have h3 : sizeOf (k, v) = 1 + sizeOf k + sizeOf v := by simp
          simp only at h1 h3 ⊢
          omega
        simpa [Json.beq] using objStep kvs hall
  intro a
  exact main (sizeOf a) a le_rfl

theorem Json.beq_iff_eq (a b : Json) : Json.beq a b = true ↔ a = b := by
  constructor
  · exact Json.eq_of_beq_sized (sizeOf a) a b le_rfl
  · intro h
    rw [h]
    exact Json.beq_refl b

instance : DecidableEq Json := fun a b =>
  decidable_of_iff (Json.beq a b = true) (Json.beq_iff_eq a b)

deriving instance DecidableEq for Except

/-- A Python dict with string keys, as an insertion-ordered association list
(real Python dicts have unique keys; lookups take the first match). -/
abbrev PyDict := List (String × Json)

/-- `d.get(k)` / `d.get(k, default)` support: first binding of `k`. -/
def pyGet (d : PyDict) (k : String) : Option Json :=
  (d.find? (fun kv => kv.1 = k)).map (fun kv => kv.2)

/-- `d[k] = v` on a Python dict: overwrite in place if the key exists
(keeping its position), else append. -/
def dictSet (d : PyDict) (k : String) (v : Json) : PyDict :=
  if d.any (fun kv => kv.1 = k) then
    d.map (fun kv => if kv.1 = k then (k, v) else kv)
  else
    d ++ [(k, v)]

/-- `d1.update(d2)`: fold `d2`'s bindings into `d1`, overwriting. -/
def dictUpdate (d1 d2 : PyDict) : PyDict :=
  d2.foldl (fun acc kv => dictSet acc kv.1 kv.2) d1

/-- Python truthiness (`bool(v)`) on the modelled values. -/
def pyBool : Json → Bool
  | .null => false
  | .bool b => b
  | .num n => n != 0
  | .str s => s != ""
  | .arr xs => !xs.isEmpty
  | .obj kvs => !kvs.isEmpty

/-- Python `str(v)` for the values the agent actually stringifies
(`postalCode` coercion).  Containers are not stringified on any code path
under scrutiny, so they get a primitive rendering. -/
def pyStr : Json → String
  | .null => "None"
  | .bool true => "True"
  | .bool false => "False"
  | .num n => toString n
  | .str s => s
  | .arr _ => "[...]"
  | .obj _ => "\x7b...\x7d"

/-! ## src/agent/response_parser.py -/

/-- ASCII whitespace as recognised by the Python `str.strip` method and the
`\s` regex class (the agent only ever deals in these). -/
def pyIsSpace (c : Char) : Bool :=
  c = ' ' || c = '\t' || c = '\n' || c = '\r' || c = '\x0b' || c = '\x0c'

/-- The Python `str.strip()` method. -/
def pyStrip (s : String) : String :=
  String.mk (((s.data.dropWhile pyIsSpace).reverse.dropWhile pyIsSpace).reverse)

/-- Drop `p` as a literal prefix of `cs`, if present. -/
def dropLit : List Char → List Char → Option (List Char)
  | [], cs => some cs
  | _ :: _, [] => none
  | p :: ps, c :: cs => if c = p then dropLit ps cs else none

/-- Scan the leading whitespace run for a newline; return what follows the
first newline, or `none` if a non-whitespace character (or the end) comes
first.  This realises the `\s*\n` part of the fence regex on a
whitespace-stripped subject. -/
def afterWsNewline : List Char → Option (List Char)
  | [] => none
  | c :: cs => if c = '\n' then some cs else if pyIsSpace c then afterWsNewline cs else none

/-- The fence regex `^(?:```)(?:json)?\s*\n(.*?)\n```\s*$` of
`parse_llm_response`, applied (as in the source) to an already-stripped
subject, returning the group(1) capture.  On a stripped subject the trailing
`\s*` is necessarily empty, so the closing fence is the literal last four
characters; the lazy group then captures everything in between (the capture
is returned un-stripped; the caller strips it, which also erases the
ambiguity of where inside a whitespace run the `\s*\n` part ends). -/
def fenceBody (text : String) : Option String :=
  match dropLit "```".data text.data with
  | none => none
  | some rest =>
    let rest := match dropLit "json".data rest with
      | some r => r
      | none => rest
    match afterWsNewline rest with
    | none => none
    | some body =>
      if body.reverse.take 4 = "```\n".data then
        some (String.mk ((body.reverse.drop 4).reverse))
      else
        none

/-- The `re.search(r"\{.*\}", text, re.DOTALL)` step: the greedy match runs
from the first `{` to the last `}` after it, if any. -/
def braceSub (text : String) : Option String :=
  let rest := text.data.dropWhile (fun c => c ≠ '\x7b')
  let upto := (rest.reverse.dropWhile (fun c => c ≠ '\x7d')).reverse
  if 2 ≤ upto.length then some (String.mk upto) else none

/-- The fallback dict `parse_llm_response` returns when no strategy decodes
(same key order as the source). -/
def fallbackDict (content : String) : Json :=
  Json.obj
    [ ("reply", .str content)
    , ("intent", .str "question")
    , ("updates", .obj [])
    , ("next_step", .str "greeting")
    , ("registration_complete", .bool false)
    , ("language", .str "de") ]

/-- The subject string the decoding strategies work on: the stripped
content, replaced by the stripped fence capture when the fence regex
matches. -/
def parseSubject (content : String) : String :=
  let text := pyStrip content
  match fenceBody text with
  | some body => pyStrip body
  | none => text

/-- `parse_llm_response(content)`.  `loads` stands for `json.loads`, the
external stdlib decoder: `none` models a raised `json.JSONDecodeError`
(the only exception the source catches), `some v` the decoded value. -/
def parse_llm_response (loads : String → Option Json) (content : String) : Json :=
  let text := parseSubject content
  match loads text with
  | some v => v
  | none =>
    match braceSub text with
    | some sub =>
      match loads sub with
      | some v => v
      | none => fallbackDict content
    | none => fallbackDict content

/-- `fallback_message(language)` — the canned model-failure reply.  The
`language` attribute is a dynamic value, compared against `"en"`. -/
def fallback_message (language : Json) : String :=
  if language = .str "en" then
    "I\x27m sorry, I\x27m having a technical issue right now. Please try again in a moment or contact us directly."
  else
    "Entschuldigung, ich habe gerade ein technisches Problem. Bitte versuche es gleich nochmal oder kontaktiere uns direkt."

/-! ## src/models/registration.py

Dataclass fields are dynamically typed in Python; scalar fields hold the
raw value written into them (`Json.null` models the Python `None` default).
-/

structure BookingDay where
  day : Json
  type : Json
  deriving Repr, DecidableEq

structure Booking where
  playgroup_types : Json := .arr []
  selected_days : List BookingDay := []
  deriving Repr, DecidableEq

structure ChildInfo where
  full_name : Json := .null
  date_of_birth : Json := .null
  special_needs : Json := .null
  deriving Repr, DecidableEq

structure ParentGuardian where
  full_name : Json := .null
  street_address : Json := .null
  postal_code : Json := .null
  city : Json := .null
  phone : Json := .null
  email : Json := .null
  deriving Repr, DecidableEq

structure EmergencyContact where
  full_name : Json := .null
  phone : Json := .null
  deriving Repr, DecidableEq

structure RegistrationData where
  child : ChildInfo := {}
  parent_guardian : ParentGuardian := {}
  emergency_contact : EmergencyContact := {}
  booking : Booking := {}
  deriving Repr, DecidableEq

/-- `RegistrationData.to_dict`. -/
def RegistrationData.to_dict (r : RegistrationData) : PyDict :=
  [ ("child", .obj
      [ ("fullName", r.child.full_name)
      , ("dateOfBirth", r.child.date_of_birth)
      , ("specialNeeds", r.child.special_needs) ])
  , ("parentGuardian", .obj
      [ ("fullName", r.parent_guardian.full_name)
      , ("streetAddress", r.parent_guardian.street_address)
      , ("postalCode", r.parent_guardian.postal_code)
      , ("city", r.parent_guardian.city)
      , ("phone", r.parent_guardian.phone)
      , ("email", r.parent_guardian.email) ])
  , ("emergencyContact", .obj
      [ ("fullName", r.emergency_contact.full_name)
      , ("phone", r.emergency_contact.phone) ])
  , ("booking", .obj
      [ ("playgroupTypes", r.booking.playgroup_types)
      , ("selectedDays", .arr (r.booking.selected_days.map
          (fun d => .obj [("day", d.day), ("type", d.type)]))) ]) ]

/-- Runtime errors a Python method can raise on malformed dynamic input. -/
inductive PyErr where
  | attributeError
  | keyError
  | typeError
  deriving Repr, DecidableEq

/-- `data.get(k, default)` where `data` must be a dict (attribute access on
anything else raises `AttributeError`). -/
def jGet (j : Json) (k : String) (dflt : Json) : Except PyErr Json :=
  match j with
  | .obj kvs => .ok ((pyGet kvs k).getD dflt)
  | _ => .error .attributeError

/-- `BookingDay(day=d["day"], type=d["type"])` for one `selectedDays` entry;
a non-dict entry or a missing key raises. -/
def bookingDayOf (d : Json) : Except PyErr BookingDay :=
  match d with
  | .obj kvs =>
    match pyGet kvs "day", pyGet kvs "type" with
    | some dv, some tv => .ok ⟨dv, tv⟩
    | _, _ => .error .keyError
  | _ => .error .typeError

/-- `RegistrationData.from_dict`.  The `if child := data.get("child", {}):`
walrus pattern skips a sub-record when the fetched value is falsy. -/
def RegistrationData.from_dict (data : Json) : Except PyErr RegistrationData := do
  let reg : RegistrationData := {}
  let child ← jGet data "child" (.obj [])
  let reg ← if pyBool child then do
      let fn ← jGet child "fullName" .null
      let dob ← jGet child "dateOfBirth" .null
      let sn ← jGet child "specialNeeds" .null
      pure { reg with child := ⟨fn, dob, sn⟩ }
    else pure reg
  let parent ← jGet data "parentGuardian" (.obj [])
  let reg ← if pyBool parent then do
      let fn ← jGet parent "fullName" .null
      let sa ← jGet parent "streetAddress" .null
      let pc ← jGet parent "postalCode" .null
      let city ← jGet parent "city" .null
      let ph ← jGet parent "phone" .null
      let em ← jGet parent "email" .null
      pure { reg with parent_guardian := ⟨fn, sa, pc, city, ph, em⟩ }
    else pure reg
  let emergency ← jGet data "emergencyContact" (.obj [])
  let reg ← if pyBool emergency then do
      let fn ← jGet emergency "fullName" .null
      let ph ← jGet emergency "phone" .null
      pure { reg with emergency_contact := ⟨fn, ph⟩ }
    else pure reg
  let booking ← jGet data "booking" (.obj [])
  let reg ← if pyBool booking then do
      let pt ← jGet booking "playgroupTypes" (.arr [])
      let sdRaw ← jGet booking "selectedDays" (.arr [])
      let sd ← match sdRaw with
        | .arr ds => ds.mapM bookingDayOf
        | _ => .error .typeError
      pure { reg with booking := ⟨pt, sd⟩ }
    else pure reg
  return reg

/-! ## src/models/conversation.py -/

structure ChatMessage where
  role : Json
  content : Json
  timestamp : Json
  deriving Repr, DecidableEq

structure ConversationState where
  conversation_id : Json
  language : Json := .str "de"
  flow_step : Json := .str "greeting"
  registration : RegistrationData := {}
  messages : List ChatMessage := []
  parent_email : Json := .str ""
  parent_name : Json := .null
  created_at : Json := .str ""
  updated_at : Json := .str ""
  last_activity : Json := .str ""
  completed : Json := .bool false
  reminder_count : Json := .num 0
  last_inbound_message_id : Json := .str ""
  /-- The agent core reads and writes a `loop_escalated` attribute, but the
  `ConversationState` dataclass in `src/models/conversation.py` declares no
  such field and neither `to_dict` nor `from_dict` mentions it.  `none`
  models the attribute never having been assigned on the instance — a read
  raises `AttributeError`; `some b` models a dynamically assigned boolean. -/
  loop_escalated : Option Bool := none
  deriving Repr, DecidableEq

/-- One entry of the `messages` list in `ConversationState.from_dict`:
`ChatMessage(role=m["role"], content=m["content"], timestamp=m.get("timestamp", ""))`. -/
def chatMessageOf (m : Json) : Except PyErr ChatMessage :=
  match m with
  | .obj kvs =>
    match pyGet kvs "role", pyGet kvs "content" with
    | some r, some c => .ok ⟨r, c, (pyGet kvs "timestamp").getD (.str "")⟩
    | _, _ => .error .keyError
  | _ => .error .typeError

/-- The `messages` list of `ConversationState.from_dict`: the value must be
iterable (a list), every entry a dict carrying `role` and `content`. -/
def messagesOf (v : Json) : Except PyErr (List ChatMessage) :=
  match v with
  | .arr ms => ms.mapM chatMessageOf
  | _ => .error .typeError

/-- `ConversationState.from_dict(data)`.  `data["conversation_id"]` raises
`KeyError` when absent; every other field falls back to its default. -/
def ConversationState.from_dict (data : PyDict) : Except PyErr ConversationState :=
  match pyGet data "conversation_id" with
  | none => .error .keyError
  | some cid =>
  match RegistrationData.from_dict ((pyGet data "registration").getD (.obj [])) with
  | .error e => .error e
  | .ok reg =>
  match messagesOf ((pyGet data "messages").getD (.arr [])) with
  | .error e => .error e
  | .ok msgs =>
  .ok {
    conversation_id := cid
    language := (pyGet data "language").getD (.str "de")
    flow_step := (pyGet data "flow_step").getD (.str "greeting")
    registration := reg
    messages := msgs
    parent_email := (pyGet data "parent_email").getD (.str "")
    parent_name := (pyGet data "parent_name").getD .null
    created_at := (pyGet data "created_at").getD (.str "")
    updated_at := (pyGet data "updated_at").getD (.str "")
    last_activity := (pyGet data "last_activity").getD (.str "")
    completed := (pyGet data "completed").getD (.bool false)
    reminder_count := (pyGet data "reminder_count").getD (.num 0)
    last_inbound_message_id := (pyGet data "last_inbound_message_id").getD (.str "") }

/-! ## `apply_updates` (src/agent/response_parser.py) -/

/-- The body of the `for key, value in updates.items()` loop of
`apply_updates`: skip `None` values, dispatch known dotted paths through the
`field_map` setters, handle the two list-valued booking paths, ignore the
rest. -/
def applyUpdate (st : ConversationState) (key : String) (value : Json) : ConversationState :=
  if value = .null then st
  else if key = "child.fullName" then
    { st with registration := { st.registration with
        child := { st.registration.child with full_name := value } } }
  else if key = "child.dateOfBirth" then
    { st with registration := { st.registration with
        child := { st.registration.child with date_of_birth := value } } }
  else if key = "child.specialNeeds" then
    { st with registration := { st.registration with
        child := { st.registration.child with special_needs := value } } }
  else if key = "parentGuardian.fullName" then
    { st with
        registration := { st.registration with
          parent_guardian := { st.registration.parent_guardian with full_name := value } }
        parent_name := value }
  else if key = "parentGuardian.streetAddress" then
    { st with registration := { st.registration with
        parent_guardian := { st.registration.parent_guardian with street_address := value } } }
  else if key = "parentGuardian.postalCode" then
    { st with registration := { st.registration with
        parent_guardian := { st.registration.parent_guardian with postal_code := .str (pyStr value) } } }
  else if key = "parentGuardian.city" then
    { st with registration := { st.registration with
        parent_guardian := { st.registration.parent_guardian with city := value } } }
  else if key = "parentGuardian.phone" then
    { st with registration := { st.registration with
        parent_guardian := { st.registration.parent_guardian with phone := value } } }
  else if key = "parentGuardian.email" then
    { st with registration := { st.registration with
        parent_guardian := { st.registration.parent_guardian with email := value } } }
  else if key = "emergencyContact.fullName" then
    { st with registration := { st.registration with
        emergency_contact := { st.registration.emergency_contact with full_name := value } } }
  else if key = "emergencyContact.phone" then
    { st with registration := { st.registration with
        emergency_contact := { st.registration.emergency_contact with phone := value } } }
  else if key = "booking.playgroupTypes" then
    match value with
    | .arr _ =>
      { st with registration := { st.registration with
          booking := { st.registration.booking with playgroup_types := value } } }
    | _ => st
  else if key = "booking.selectedDays" then
    match value with
    | .arr ds =>
      { st with registration := { st.registration with
          booking := { st.registration.booking with selected_days := ds.filterMap (fun d =>
            match d with
            | .obj kvs =>
              match pyGet kvs "day", pyGet kvs "type" with
              | some dv, some tv => some ⟨dv, tv⟩
              | _, _ => none
            | _ => none) } } }
    | _ => st
  else st

/-- `apply_updates(state, updates)` — fold the loop over the dict items. -/
def apply_updates (st : ConversationState) (updates : PyDict) : ConversationState :=
  updates.foldl (fun st kv => applyUpdate st kv.1 kv.2) st

/-! ## `_diff_registrations` (src/storage/json_store.py) -/

mutual

/-- The inner `_flatten(d, prefix)` of `_diff_registrations`: dict values
recurse with a dotted prefix, all other values are leaves; sub-results merge
into the accumulator dict by `out.update(...)` / `out[key] = v`. -/
def flattenInto : PyDict → String → PyDict → PyDict
  | [], _, out => out
  | (k, v) :: rest, pre, out =>
    let key := if pre = "" then k else pre ++ "." ++ k
    flattenInto rest pre (flattenVal v key out)

/-- Handle one value of the `_flatten` loop: recurse on dicts, store leaves. -/
def flattenVal : Json → String → PyDict → PyDict
  | .obj sub, key, out => dictUpdate out (flattenInto sub key [])
  | v, key, out => dictSet out key v

end

/-- `_flatten(d)` with the empty prefix. -/
def flatten (d : PyDict) : PyDict := flattenInto d "" []

/-- `flat.get(key)` with the Python `None`-for-missing convention. -/
def flatGet (d : PyDict) (key : String) : Json :=
  (pyGet (flatten d) key).getD .null

/-- First-occurrence deduplication, realising `set(old_flat) | set(new_flat)`
(the set's own iteration order is arbitrary in Python and irrelevant here —
the keys are sorted immediately afterwards). -/
def dedupKeys : List String → List String
  | [] => []
  | k :: ks => k :: (dedupKeys ks).filter (fun x => x ≠ k)

/-- Lexicographic ≤ on character lists (Python string comparison is
lexicographic by code point). -/
def charsLe : List Char → List Char → Bool
  | [], _ => true
  | _ :: _, [] => false
  | a :: as, b :: bs => if a < b then true else if b < a then false else charsLe as bs

/-- Lexicographic ≤ on strings. -/
def strLe (a b : String) : Bool := charsLe a.data b.data

/-- Insert into an already-sorted list of strings (helper realising the
Python `sorted` builtin). -/
def insertSorted (x : String) : List String → List String
  | [] => [x]
  | y :: ys => if strLe x y then x :: y :: ys else y :: insertSorted x ys

/-- The Python `sorted` builtin on a list of strings, as insertion sort. -/
def sortStrings (l : List String) : List String := l.foldr insertSorted []

/-- `_diff_registrations(old, new)`: over the sorted union of flattened
keys, record `(old, new)` wherever the two (defaulted) values differ.  The
loop writes each key of the deduplicated union at most once, so the changes
dict is the in-order list of differing keys. -/
def _diff_registrations (old new : PyDict) : List (String × Json × Json) :=
  let oldFlat := flatten old
  let newFlat := flatten new
  let allKeys := dedupKeys (oldFlat.map Prod.fst ++ newFlat.map Prod.fst)
  let sortedKeys := sortStrings allKeys
  sortedKeys.filterMap (fun key =>
    let o := (pyGet oldFlat key).getD .null
    let n := (pyGet newFlat key).getD .null
    if o ≠ n then some (key, o, n) else none)

/-! ## ConversationStore (src/storage/json_store.py) -/

/-- ASCII lower-casing, as `str.lower` acts on the address strings here. -/
def asciiLower (c : Char) : Char :=
  if 'A' ≤ c && c ≤ 'Z' then Char.ofNat (c.toNat + 32) else c

/-- `normalize_email`: strip whitespace, lowercase. -/
def normalize_email (email : String) : String :=
  String.mk ((pyStrip email).data.map asciiLower)

/-- The `.replace("@", "_at_")` step of `_email_to_filename`. -/
def replaceAtSign : List Char → List Char
  | [] => []
  | c :: cs =>
    if c = '@' then '_' :: 'a' :: 't' :: '_' :: replaceAtSign cs
    else c :: replaceAtSign cs

/-- `_email_to_filename`. -/
def _email_to_filename (email : String) : String :=
  String.mk (replaceAtSign (normalize_email email).data)

/-- One identity's registration directory.  A version file
`v{version}_{ts}.json` is keyed by the `(version, ts)` pair: with the
fixed `%Y-%m-%dT%H-%M-%SZ` timestamp format the rendered filename is a
bijective image of that pair. `current` is the `current.json` copy. -/
structure RegDir where
  files : List ((Nat × String) × PyDict) := []
  current : Option PyDict := none
  deriving Repr, DecidableEq

/-- Write a file into the directory: overwrite an existing name in place,
else create it. -/
def setFile (files : List ((Nat × String) × PyDict)) (key : Nat × String)
    (record : PyDict) : List ((Nat × String) × PyDict) :=
  if files.any (fun f => f.1 = key) then
    files.map (fun f => if f.1 = key then (key, record) else f)
  else
    files ++ [(key, record)]

/-- `ConversationStore._write_version`: write `v{version}_{ts}.json` and
refresh `current.json`. -/
def _write_version (dir : RegDir) (version : Nat) (record : PyDict) (ts : String) : RegDir :=
  { files := setFile dir.files (version, ts) record, current := some record }

/-- `ConversationStore._build_record`. -/
def _build_record (reg_data : PyDict) (version : Nat) (st : ConversationState)
    (ts : String) : PyDict :=
  dictSet reg_data "metadata" (.obj
    [ ("version", .num version)
    , ("submittedAt", .str ts)
    , ("channel", .str "email")
    , ("parentEmail", st.parent_email)
    , ("conversationId", st.conversation_id) ])

/-- `state.parent_email or state.conversation_id` fed to
`_email_to_filename` (string methods on a non-string raise). -/
def regKeyOf (st : ConversationState) : Except PyErr String :=
  match (if pyBool st.parent_email then st.parent_email else st.conversation_id) with
  | .str s => .ok (_email_to_filename s)
  | _ => .error .attributeError

/-- `get_registration_history`: every stored `v*.json` record.  The glob
order of the listing is not modelled; only the record count feeds version
assignment. -/
def get_registration_history (dir : RegDir) : List PyDict :=
  dir.files.map (fun f => f.2)

/-- `ConversationStore.save_registration` — stores the first version of a
completed registration, with the version number fixed at 1. -/
def save_registration (st : ConversationState) (dir : RegDir) (ts : String) :
    Except PyErr (RegDir × String × Nat) :=
  match regKeyOf st with
  | .error e => .error e
  | .ok email_key =>
    let version := 1
    let record := _build_record (st.registration.to_dict) version st ts
    .ok (_write_version dir version record ts, email_key, version)

/-- The record written by `save_registration_version`: the base record with
`record["metadata"]["changeSummary"]` filled in. -/
def _build_update_record (st : ConversationState)
    (change_summary : List (String × Json × Json)) (version : Nat) (ts : String) : PyDict :=
  let record := _build_record (st.registration.to_dict) version st ts
  let cs : Json := .obj (change_summary.map (fun c =>
    (c.1, Json.obj [("old", c.2.1), ("new", c.2.2)])))
  record.map (fun kv =>
    if kv.1 = "metadata" then
      (kv.1, match kv.2 with
        | .obj m => Json.obj (dictSet m "changeSummary" cs)
        | v => v)
    else kv)

/-- `ConversationStore.save_registration_version` — stores an updated
registration as version `1 + count of existing stored versions`, carrying
the change summary inside the metadata. -/
def save_registration_version (st : ConversationState)
    (change_summary : List (String × Json × Json)) (dir : RegDir) (ts : String) :
    Except PyErr (RegDir × String × Nat) :=
  match regKeyOf st with
  | .error e => .error e
  | .ok email_key =>
    let history := get_registration_history dir
    let version := history.length + 1
    let record := _build_update_record st change_summary version ts
    .ok (_write_version dir version record ts, email_key, version)

/-! ## EmailAgent (src/agent/core.py)

The agent methods are embedded as state-passing functions.  Calls to the
store and to the notifier are recorded as `Event`s in call order (notifier
calls sit inside `try/except` in the source, so their failures never alter
the control flow; the event records that the call was issued).  The
combined `llm.complete` + `parse_llm_response` step inside the handlers'
`try` block is a parameter: `Except.error ()` models a raised exception,
`Except.ok parsed` the parsed response dict.
-/

/-- `MAX_USER_MESSAGES` — the hard inbound-message cap. -/
def MAX_USER_MESSAGES : Nat := 20

inductive Event where
  | storeSave (st : ConversationState)
  | saveRegistration (version : Nat)
  | notifyAdmin (version : Nat)
  | notifyParent
  | saveRegistrationVersion (version : Nat)
  | notifyRegistrationUpdate (version : Nat)
  | notifyLoopEscalation
  deriving Repr, DecidableEq

/-- `parsed.get("updates", {}) or {}`, which every consumer then iterates
with `.items()` / `.values()` — a non-dict truthy value raises there. -/
def updatesOf (parsed : PyDict) : Except PyErr PyDict :=
  let raw := (pyGet parsed "updates").getD (.obj [])
  let raw := if pyBool raw then raw else .obj []
  match raw with
  | .obj u => .ok u
  | _ => .error .attributeError

/-- The conversation state after the extraction steps of
`_handle_registration`: updates applied, `flow_step` and `language` set
from the parsed response. -/
def registrationTurnState (parsed updates : PyDict) (st : ConversationState) :
    ConversationState :=
  { apply_updates st updates with
      flow_step := (pyGet parsed "next_step").getD st.flow_step
      language := (pyGet parsed "language").getD st.language }

/-- The state the completion transition persists: the turn state with the
`completed` latch set. -/
def completedTurnState (parsed updates : PyDict) (st : ConversationState) :
    ConversationState :=
  { registrationTurnState parsed updates st with completed := .bool true }

/-- `EmailAgent._handle_registration`. -/
def handleRegistration (model : Except Unit PyDict) (now : String)
    (st : ConversationState) (dir : RegDir) :
    Except PyErr (Json × ConversationState × RegDir × List Event) :=
  match model with
  | .error _ => .ok (.str (fallback_message st.language), st, dir, [])
  | .ok parsed =>
    match updatesOf parsed with
    | .error e => .error e
    | .ok updates =>
      let reply := (pyGet parsed "reply").getD (.str "")
      let is_complete := pyBool ((pyGet parsed "registration_complete").getD (.bool false))
      if is_complete && !(pyBool (registrationTurnState parsed updates st).completed) then
        match save_registration (completedTurnState parsed updates st) dir now with
        | .error e => .error e
        | .ok (dir, _, version) =>
          .ok (reply, completedTurnState parsed updates st, dir,
               [.saveRegistration version, .notifyAdmin version, .notifyParent])
      else
        .ok (reply, registrationTurnState parsed updates st, dir, [])

/-- `EmailAgent._handle_registration_update` — the post-completion update
sub-flow: apply the updates, diff the serialized record, and only on a
non-empty diff store a new version and notify. -/
def handleRegistrationUpdate (now : String) (st : ConversationState)
    (updates : PyDict) (dir : RegDir) :
    Except PyErr (ConversationState × RegDir × List Event) :=
  let old_data := st.registration.to_dict
  let st := apply_updates st updates
  let new_data := st.registration.to_dict
  let change_summary := _diff_registrations old_data new_data
  if change_summary.isEmpty then
    .ok (st, dir, [])
  else
    match save_registration_version st change_summary dir now with
    | .error e => .error e
    | .ok (dir, _, version) =>
      .ok (st, dir, [.saveRegistrationVersion version, .notifyRegistrationUpdate version])

/-- The conversation state after the `language` assignment at the top of
`_handle_post_completion`. -/
def postTurnState (parsed : PyDict) (st : ConversationState) : ConversationState :=
  { st with language := (pyGet parsed "language").getD st.language }

/-- `EmailAgent._handle_post_completion`. -/
def handlePostCompletion (model : Except Unit PyDict) (now : String)
    (st : ConversationState) (dir : RegDir) :
    Except PyErr (Json × ConversationState × RegDir × List Event) :=
  match model with
  | .error _ => .ok (.str (fallback_message st.language), st, dir, [])
  | .ok parsed =>
    let reply := (pyGet parsed "reply").getD (.str "")
    let intent := (pyGet parsed "intent").getD (.str "question")
    if intent = .str "update" then
      match updatesOf parsed with
      | .error e => .error e
      | .ok updates =>
        if updates.any (fun kv => kv.2 ≠ .null) then
          match handleRegistrationUpdate now (postTurnState parsed st) updates dir with
          | .error e => .error e
          | .ok (st, dir, evs) => .ok (reply, st, dir, evs)
        else
          .ok (reply, postTurnState parsed st, dir, [])
    else if intent = .str "new_child" then
      .ok (reply,
        { postTurnState parsed st with
            registration := {}, completed := .bool false, flow_step := .str "child_name" },
        dir, [])
    else
      .ok (reply, postTurnState parsed st, dir, [])

/-- The conversation state at the top of `process_message` after stamping
`last_activity`, recording the inbound Message-ID, and appending the user
message. -/
def turnEntryState (now msgText inboundId : String) (st : ConversationState) :
    ConversationState :=
  let st := { st with last_activity := .str now }
  let st := if inboundId ≠ "" then { st with last_inbound_message_id := .str inboundId } else st
  { st with messages := st.messages ++ [⟨.str "user", .str msgText, .str now⟩] }

/-- `EmailAgent.process_message`.  `model` stands for the handler-internal
`llm.complete` + parse step; `loaded` is the `store.load(email_key)` result.
Returns the reply, the state as persisted, the registration directory, and
the side-effect events. -/
def processMessage (now : String) (model : Except Unit PyDict)
    (parent_email msgText inboundId : String)
    (loaded : Option ConversationState) (dir : RegDir) :
    Except PyErr (Json × ConversationState × RegDir × List Event) :=
  let email_key := normalize_email parent_email
  let st := match loaded with
    | some s => s
    | none =>
      { conversation_id := .str email_key
        parent_email := .str email_key
        created_at := .str now
        updated_at := .str now
        last_activity := .str now }
  let st := turnEntryState now msgText inboundId st
  let user_msg_count := (st.messages.filter (fun m => m.role = .str "user")).length
  if user_msg_count > MAX_USER_MESSAGES then
    match st.loop_escalated with
    | none =>
      -- `if not state.loop_escalated:` reads an attribute the dataclass
      -- never defines: AttributeError.
      .error .attributeError
    | some escalated =>
      if !escalated then
        let st := { st with loop_escalated := some true, updated_at := .str now }
        .ok (.str "", st, dir, [.storeSave st, .notifyLoopEscalation])
      else
        .ok (.str "", st, dir, [.storeSave st])
  else
    match
      (if pyBool st.completed then handlePostCompletion model now st dir
       else handleRegistration model now st dir) with
    | .error e => .error e
    | .ok (reply, st, dir, evs) =>
      let st := { st with
        messages := st.messages ++ [⟨.str "assistant", reply, .str now⟩]
        updated_at := .str now }
      .ok (reply, st, dir, evs ++ [.storeSave st])

/-! ## Multi-turn traces -/

/-- `parsed.get("intent", "question")` as read by the post-completion
handler. -/
def intentOf (parsed : PyDict) : Json :=
  (pyGet parsed "intent").getD (.str "question")

/-- A turn whose parsed response does not carry the `new_child` intent
(model failures trivially qualify).  `new_child` discards the completed
registration and restarts the flow for a fresh one. -/
def noNewChildB : Except Unit PyDict → Bool
  | .error _ => true
  | .ok p => intentOf p ≠ .str "new_child"

/-- Run a sequence of turns on one conversation.  Each turn processes the
state the previous turn persisted (threaded directly; `save` then `load` on
the store round-trips the record).  A turn that raises persists nothing —
the exception fires before the save — so the next turn sees the previous
state and no events are recorded for the failed turn. -/
def runTrace (pe : String) : List (Except Unit PyDict) → ConversationState → RegDir →
    ConversationState × RegDir × List Event
  | [], st, dir => (st, dir, [])
  | r :: rs, st, dir =>
    match processMessage "t" r pe "m" "" (some st) dir with
    | .ok (_, stNext, dirNext, evs) =>
      let rest := runTrace pe rs stNext dirNext
      (rest.1, rest.2.1, evs ++ rest.2.2)
    | .error _ => runTrace pe rs st dir

/-- Count of `notify_admin` calls in an event list. -/
def countAdmin (evs : List Event) : Nat :=
  (evs.filter (fun e => match e with | .notifyAdmin _ => true | _ => false)).length

/-- Count of `save_registration` (version-1 snapshot) calls. -/
def countV1 (evs : List Event) : Nat :=
  (evs.filter (fun e => match e with | .saveRegistration _ => true | _ => false)).length

/-- Count of `notify_loop_escalation` calls. -/
def countLoopEsc (evs : List Event) : Nat :=
  (evs.filter (fun e => match e with | .notifyLoopEscalation => true | _ => false)).length

/-- Run `save_registration` once and then `n` `save_registration_version`
calls (the canonical completion-then-updates call sequence), collecting the
returned version numbers.  Call `k` uses timestamp `ts k`. -/
def runUpdateCalls (st : ConversationState) (cs : List (String × Json × Json))
    (ts : Nat → String) : Nat → Nat → RegDir → List Nat × RegDir
  | _, 0, dir => ([], dir)
  | k, n + 1, dir =>
    match save_registration_version st cs dir (ts k) with
    | .ok (dirNext, _, v) =>
      let rest := runUpdateCalls st cs ts (k + 1) n dirNext
      (v :: rest.1, rest.2)
    | .error _ => ([], dir)

/-- The full returned-version sequence for `save_registration` followed by
`n` updates. -/
def versionSequence (st : ConversationState) (cs : List (String × Json × Json))
    (ts : Nat → String) (n : Nat) : List Nat :=
  match save_registration st ({} : RegDir) (ts 0) with
  | .ok (dir, _, v) => v :: (runUpdateCalls st cs ts 1 n dir).1
  | .error _ => []

/-! ## Concrete fixtures used by witnesses and counterexamples -/

/-- A decoder that only knows the literal `42` (any sound JSON decoder
agrees with it on that input). -/
def loads42 : String → Option Json :=
  fun s => if s = "42" then some (.num 42) else none

/-- A state whose record has `child.full_name = "Lena"`. -/
def lenaState : ConversationState :=
  { conversation_id := .str "maria@example.com"
    parent_email := .str "maria@example.com"
    registration := { child := { full_name := .str "Lena" } } }

/-- A conversation already over the message cap: 21 stored user messages. -/
def overCapState : ConversationState :=
  { conversation_id := .str "loop@example.com"
    parent_email := .str "loop@example.com"
    messages := List.replicate 21 ⟨.str "user", .str "Noch eine Nachricht", .str "t0"⟩ }

/-- An old persisted conversation record without a `loop_escalated` key
(the shape the deserialization test feeds to `from_dict`). -/
def oldRecordDict : PyDict :=
  [ ("conversation_id", .str "old@example.com")
  , ("parent_email", .str "old@example.com")
  , ("language", .str "de")
  , ("flow_step", .str "greeting")
  , ("registration", .obj [])
  , ("messages", .arr [])
  , ("completed", .bool false)
  , ("reminder_count", .num 0)
  , ("last_inbound_message_id", .str "") ]

/-- A parsed model response reporting completion. -/
def completeParsed : PyDict :=
  [("reply", .str "Geschafft!"), ("registration_complete", .bool true)]

/-- A fresh conversation state for `p@e.com`. -/
def freshState : ConversationState :=
  { conversation_id := .str "p@e.com", parent_email := .str "p@e.com" }

/-! # Theorems -/

/-! ## C5 — parser fallback -/

/-- C5: `parse_llm_response` is a total function of its input (the embedding
returns a value for every string), and on every input on which all three
decoding strategies fail — the (possibly fence-extracted) subject does not
decode, and the brace-to-brace substring is absent or does not decode — it
returns exactly the fallback dict: `reply` is the raw input verbatim,
`updates = {}`, `next_step = "greeting"`, `registration_complete = false`,
`language = "de"`, `intent = "question"`. -/
theorem parse_fallback_exact (loads : String → Option Json) (content : String)
    (h1 : loads (parseSubject content) = none)
    (h2 : ∀ sub, braceSub (parseSubject content) = some sub → loads sub = none) :
    parse_llm_response loads content = fallbackDict content ∧
    fallbackDict content = Json.obj
      [ ("reply", .str content), ("intent", .str "question"), ("updates", .obj []),
        ("next_step", .str "greeting"), ("registration_complete", .bool false),
        ("language", .str "de") ] := by
  refine ⟨?_, rfl⟩
  simp only [parse_llm_response, h1]
  cases hb : braceSub (parseSubject content) with
  | none => rfl
  | some sub => simp only [h2 sub hb]

theorem parse_fallback_exact_witness :
    ((fun _ : String => (none : Option Json)) (parseSubject "Hallo, wie geht es?") = none) ∧
    parse_llm_response (fun _ => none) "Hallo, wie geht es?" =
      fallbackDict "Hallo, wie geht es?" :=
  ⟨rfl, (parse_fallback_exact (fun _ => none) "Hallo, wie geht es?" rfl (fun _ _ => rfl)).1⟩

/-! ## C10 — a decodable non-object input is returned as-is -/

/-- C10: for the input `"42"` — whose trimmed text is valid JSON but not a
JSON object — `parse_llm_response` returns the decoded non-dict value
`42` itself (for any decoder that decodes `"42"` to the number 42, as
`json.loads` does), not an object and not the fallback dict. -/
theorem parse_returns_nonobject (loads : String → Option Json)
    (h : loads "42" = some (.num 42)) :
    parse_llm_response loads "42" = .num 42 ∧
    (∀ kvs, Json.num 42 ≠ Json.obj kvs) ∧
    Json.num 42 ≠ fallbackDict "42" := by
  refine ⟨?_, fun kvs h2 => Json.noConfusion h2, fun h2 => Json.noConfusion h2⟩
  simp only [parse_llm_response, show parseSubject "42" = "42" from rfl, h]

theorem parse_returns_nonobject_witness :
    loads42 "42" = some (.num 42) ∧ parse_llm_response loads42 "42" = .num 42 :=
  ⟨rfl, (parse_returns_nonobject loads42 rfl).1⟩

/-! ## C7 — null update values never clear fields -/

/-- A `None`-valued entry is skipped by the update loop. -/
theorem applyUpdate_null (st : ConversationState) (k : String) :
    applyUpdate st k .null = st := by
  simp [applyUpdate]

/-- C7: `apply_updates` skips every null-valued entry — deleting any
null-valued entry from the updates dict leaves the resulting state
unchanged, wherever the entry sits — and in particular applying
`{"child.fullName": None}` to a record with `full_name = "Lena"` leaves it
`"Lena"`. -/
theorem apply_updates_null_nondestructive :
    (∀ (st : ConversationState) (pre post : PyDict) (k : String),
        apply_updates st (pre ++ (k, Json.null) :: post) = apply_updates st (pre ++ post)) ∧
    (∀ st : ConversationState, st.registration.child.full_name = .str "Lena" →
        (apply_updates st [("child.fullName", .null)]).registration.child.full_name =
          .str "Lena") := by
  constructor
  · intro st pre post k
    induction pre generalizing st with
    | nil =>
      show apply_updates (applyUpdate st k .null) post = apply_updates st post
      rw [applyUpdate_null]
    | cons kv rest ih =>
      show apply_updates (applyUpdate st kv.1 kv.2) (rest ++ (k, Json.null) :: post) =
        apply_updates (applyUpdate st kv.1 kv.2) (rest ++ post)
      exact ih (applyUpdate st kv.1 kv.2)
  · intro st h
    show (apply_updates (applyUpdate st "child.fullName" .null) []).registration.child.full_name = _
    rw [applyUpdate_null]
    exact h

theorem apply_updates_null_nondestructive_witness :
    lenaState.registration.child.full_name = .str "Lena" ∧
    (apply_updates lenaState [("child.fullName", .null)]).registration.child.full_name =
      .str "Lena" :=
  ⟨rfl, apply_updates_null_nondestructive.2 lenaState rfl⟩

/-! ## C8 — empty diff: no version, no notification -/

/-- C8: when the post-completion update sub-flow computes an empty diff,
`_handle_registration_update` leaves the stored version history untouched
and issues no store or notifier call at all (no
`save_registration_version`, no `notify_registration_update`). -/
theorem noop_update_never_versions (now : String) (st : ConversationState)
    (updates : PyDict) (dir : RegDir)
    (h : _diff_registrations st.registration.to_dict
           (apply_updates st updates).registration.to_dict = []) :
    handleRegistrationUpdate now st updates dir = .ok (apply_updates st updates, dir, []) := by
  simp [handleRegistrationUpdate, h]

theorem noop_update_never_versions_witness :
    (_diff_registrations lenaState.registration.to_dict
       (apply_updates lenaState []).registration.to_dict = []) ∧
    handleRegistrationUpdate "t" lenaState [] ({} : RegDir) =
      .ok (apply_updates lenaState [], ({} : RegDir), []) :=
  ⟨by decide, noop_update_never_versions "t" lenaState [] {} (by decide)⟩

/-! ## C3 — loop_escalated on deserialized records -/

/-- C3 (code bug): `ConversationState.from_dict` never assigns the
`loop_escalated` attribute — the dataclass does not declare the field and
`from_dict` does not mention it — so every successfully deserialized state
has the attribute unset (`none`): reading `state.loop_escalated` raises
`AttributeError` instead of returning `False`, contrary to the spec and to
the deserialization test in `tests/test_models.py`. -/
theorem from_dict_loop_escalated_unset :
    ∀ (data : PyDict) (st : ConversationState),
      ConversationState.from_dict data = .ok st → st.loop_escalated = none := by
  intro data st h
  unfold ConversationState.from_dict at h
  split at h
  · exact Except.noConfusion h
  · split at h
    · exact Except.noConfusion h
    · split at h
      · exact Except.noConfusion h
      · cases h
        rfl

theorem from_dict_loop_escalated_unset_witness :
    ConversationState.from_dict oldRecordDict =
      .ok { conversation_id := .str "old@example.com", parent_email := .str "old@example.com" } ∧
    ({ conversation_id := .str "old@example.com", parent_email := .str "old@example.com"
        : ConversationState }).loop_escalated = none :=
  ⟨rfl, from_dict_loop_escalated_unset oldRecordDict _ rfl⟩

/-! ## C9 — diff correctness -/

theorem mem_dedupKeys (x : String) : ∀ l : List String, x ∈ dedupKeys l ↔ x ∈ l := by
  intro l
  induction l with
  | nil => simp [dedupKeys]
  | cons k ks ih =>
    by_cases hx : x = k
    · simp [dedupKeys, hx]
    · simp [dedupKeys, hx, List.mem_filter, ih]

theorem mem_insertSorted (x y : String) : ∀ l : List String,
    x ∈ insertSorted y l ↔ x = y ∨ x ∈ l := by
  intro l
  induction l with
  | nil => simp [insertSorted]
  | cons z zs ih =>
    unfold insertSorted
    by_cases hle : strLe y z = true
    · simp only [if_pos hle, List.mem_cons]
      try tauto
    · simp only [if_neg hle, List.mem_cons, ih]
      try tauto

theorem mem_sortStrings (x : String) : ∀ l : List String, x ∈ sortStrings l ↔ x ∈ l := by
  intro l
  induction l with
  | nil => simp [sortStrings]
  | cons k ks ih =>
    show x ∈ insertSorted k (sortStrings ks) ↔ _
    rw [mem_insertSorted, ih]
    simp

theorem pyGet_mem_keys (d : PyDict) (k : String) (v : Json)
    (h : pyGet d k = some v) : k ∈ d.map Prod.fst := by
  unfold pyGet at h
  cases hf : d.find? (fun kv => kv.1 = k) with
  | none => rw [hf] at h; exact Option.noConfusion h
  | some kv =>
    have hmem : kv ∈ d := List.mem_of_find?_eq_some hf
    have hp : kv.1 = k := by simpa using List.find?_some hf
    exact hp ▸ List.mem_map_of_mem Prod.fst hmem

/-- C9: `_diff_registrations(old, new)` contains the triple
`(key, o, n)` exactly when the flattened values of `old` and `new` at
`key` (with Python's missing-key-is-`None` lookup) differ and are `o` and
`n` respectively; and `_diff_registrations(x, x)` is empty for every dict. -/
theorem diff_registrations_exact :
    (∀ (old new : PyDict) (key : String) (o n : Json),
        (key, o, n) ∈ _diff_registrations old new ↔
          (flatGet old key ≠ flatGet new key ∧
           o = flatGet old key ∧ n = flatGet new key)) ∧
    (∀ x : PyDict, _diff_registrations x x = []) := by
  constructor
  · intro old new key o n
    constructor
    · intro hmem
      simp only [_diff_registrations, List.mem_filterMap] at hmem
      obtain ⟨key2, _, hf⟩ := hmem
      by_cases hne : (pyGet (flatten old) key2).getD .null ≠ (pyGet (flatten new) key2).getD .null
      · rw [if_pos hne] at hf
        simp only [Option.some.injEq, Prod.mk.injEq] at hf
        obtain ⟨rfl, rfl, rfl⟩ := hf
        exact ⟨hne, rfl, rfl⟩
      · rw [if_neg hne] at hf
        exact Option.noConfusion hf
    · rintro ⟨hne, rfl, rfl⟩
      simp only [_diff_registrations, List.mem_filterMap]
      refine ⟨key, ?_, ?_⟩
      · rw [mem_sortStrings, mem_dedupKeys, List.mem_append]
        cases ho : pyGet (flatten old) key with
        | some v => exact Or.inl (pyGet_mem_keys _ _ _ ho)
        | none =>
          cases hn : pyGet (flatten new) key with
          | some v => exact Or.inr (pyGet_mem_keys _ _ _ hn)
          | none =>
            exfalso
            apply hne
            unfold flatGet
            rw [ho, hn]
      · have hne2 : (pyGet (flatten old) key).getD Json.null ≠
            (pyGet (flatten new) key).getD Json.null := hne
        rw [if_pos hne2]
        rfl
  · intro x
    simp only [_diff_registrations]
    rw [List.filterMap_eq_nil_iff]
    intro key _
    simp

theorem diff_registrations_exact_witness :
    (("a.b", Json.num 1, Json.num 2) ∈
        _diff_registrations [("a", .obj [("b", .num 1)])] [("a", .obj [("b", .num 2)])]) ∧
    _diff_registrations ([("x", .num 5)] : PyDict) [("x", .num 5)] = [] :=
  ⟨(diff_registrations_exact.1 [("a", .obj [("b", .num 1)])] [("a", .obj [("b", .num 2)])]
      "a.b" (.num 1) (.num 2)).mpr ⟨by decide, by decide, by decide⟩,
   diff_registrations_exact.2 [("x", .num 5)]⟩

/-! ## C1 — version numbering -/

/-- Writing a filename no existing file has appends to the directory. -/
theorem setFile_fresh (files : List ((Nat × String) × PyDict)) (key : Nat × String)
    (r : PyDict) (h : ∀ f ∈ files, f.1 ≠ key) :
    setFile files key r = files ++ [(key, r)] := by
  have hany : files.any (fun f => f.1 = key) = false := by
    rw [List.any_eq_false]
    intro f hf
    simpa using h f hf
  unfold setFile
  rw [hany]
  simp

/-- One `save_registration_version` call on a directory whose stored
version numbers do not exceed its file count appends one fresh version file
numbered `1 + ` that count. -/
theorem save_registration_version_step (st : ConversationState)
    (cs : List (String × Json × Json)) (dir : RegDir) (ts1 : String) (ekey : String)
    (hk : regKeyOf st = .ok ekey)
    (hfresh : ∀ f ∈ dir.files, f.1 ≠ (dir.files.length + 1, ts1)) :
    save_registration_version st cs dir ts1 =
      .ok ({ files := dir.files ++
               [((dir.files.length + 1, ts1),
                 _build_update_record st cs (dir.files.length + 1) ts1)],
             current := some (_build_update_record st cs (dir.files.length + 1) ts1) },
           ekey, dir.files.length + 1) := by
  simp only [save_registration_version, hk, get_registration_history, List.length_map,
    _write_version, setFile_fresh dir.files _ _ hfresh]

/-- Every `save_registration_version` call appends one version file and
returns `1 + ` the previous file count; over a run of `n` calls on a
directory whose file versions do not exceed its file count, the returned
versions count up from `1 + ` that file count. -/
theorem runUpdateCalls_versions (st : ConversationState) (cs : List (String × Json × Json))
    (ts : Nat → String) (ekey : String) (hk : regKeyOf st = .ok ekey) :
    ∀ (n k : Nat) (dir : RegDir),
      (∀ f ∈ dir.files, f.1.1 ≤ dir.files.length) →
      (runUpdateCalls st cs ts k n dir).1 = List.range' (dir.files.length + 1) n := by
  intro n
  induction n with
  | zero => intro k dir hinv; rfl
  | succ n ih =>
    intro k dir hinv
    have hfresh : ∀ f ∈ dir.files, f.1 ≠ (dir.files.length + 1, ts k) := by
      intro f hf hcontra
      have h1 : f.1.1 ≤ dir.files.length := hinv f hf
      rw [hcontra] at h1
      omega
    simp only [runUpdateCalls, save_registration_version_step st cs dir (ts k) ekey hk hfresh]
    rw [ih (k + 1)]
    · simp only [List.length_append, List.length_singleton]
      rfl
    · intro f hf
      simp only [List.length_append, List.length_singleton]
      rcases List.mem_append.mp hf with hl | hr
      · have := hinv f hl
        omega
      · simp only [List.mem_singleton] at hr
        rw [hr]

/-- C1 (amended): `save_registration` always returns version 1 — it never
counts existing stored versions — while `save_registration_version` returns
`1 + ` the count of stored version files; consequently the canonical call
sequence of one initial `save_registration` followed by `n`
`save_registration_version` calls returns exactly the versions
`1, 2, ..., n+1` in call order. -/
theorem version_monotone_amended (st : ConversationState)
    (cs : List (String × Json × Json)) (ts : Nat → String) (n : Nat) (ekey : String)
    (hk : regKeyOf st = .ok ekey) :
    versionSequence st cs ts n = List.range' 1 (n + 1) ∧
    (∀ (dir : RegDir) (ts1 : String),
        save_registration st dir ts1 =
          .ok (_write_version dir 1 (_build_record st.registration.to_dict 1 st ts1) ts1,
               ekey, 1)) := by
  constructor
  · simp only [versionSequence, save_registration, hk, _write_version,
      setFile_fresh [] _ _ (fun f hf => absurd hf (List.not_mem_nil f))]
    rw [runUpdateCalls_versions st cs ts ekey hk n 1]
    · simp only [List.nil_append, List.length_singleton]
      rfl
    · intro f hf
      simp only [List.nil_append, List.mem_singleton] at hf
      rw [hf]
      simp
  · intro dir ts1
    simp [save_registration, hk]

theorem version_monotone_amended_witness :
    regKeyOf freshState = .ok "p_at_e.com" ∧
    versionSequence freshState [] (fun k => toString k) 2 = List.range' 1 3 :=
  ⟨by decide,
   (version_monotone_amended freshState [] (fun k => toString k) 2 "p_at_e.com" (by decide)).1⟩

/-- C1 counterexample: a mixed sequence of two successive calls on one
identity — `save_registration` twice, as the post-completion `new_child`
flow makes reachable — returns the versions `(1, 1)`, not `(1, 2)`:
`save_registration` hardcodes version 1 instead of counting stored
versions, so the claimed `1, 2, ..., N` numbering fails for it. -/
theorem version_monotone_counterexample :
    (match save_registration freshState {} "t1" with
     | .ok (d1, _, v1) =>
       match save_registration freshState d1 "t2" with
       | .ok (_, _, v2) => some (v1, v2)
       | .error _ => none
     | .error _ => none) = some (1, 1) ∧
    ((1, 1) : Nat × Nat) ≠ (1, 2) := by
  refine ⟨by decide, by decide⟩

/-! ## C2 — message cap behaviour -/

/-- C2 (code bug): on a conversation whose stored user-message count (21)
already exceeds the cap of 20, the next `process_message` call does not
return the empty string — the guard branch reads `state.loop_escalated`,
an attribute the `ConversationState` dataclass never defines, and raises
`AttributeError` (so it also never reaches the escalation notifier). -/
theorem over_cap_process_message_raises :
    processMessage "t1" (.ok [("reply", .str "ok")]) "loop@example.com" "One more" ""
      (some overCapState) {} = .error .attributeError ∧
    (overCapState.messages.filter (fun m => m.role = .str "user")).length = 21 ∧
    overCapState.loop_escalated = none :=
  ⟨rfl, by decide, rfl⟩

/-! ## C6 — model-call failure falls back and still persists -/

/-- Whichever handler the turn routes to, a raised model call produces the
canned fallback reply with no state, store or event change. -/
theorem handler_error_fallback (b : Bool) (now : String) (st : ConversationState) (dir : RegDir) :
    (if b = true then handlePostCompletion (.error ()) now st dir
     else handleRegistration (.error ()) now st dir) =
      .ok (.str (fallback_message st.language), st, dir, []) := by
  cases b <;> simp [handlePostCompletion, handleRegistration]

/-- C6: on a turn under the message cap whose model call raises,
`process_message` still completes: it returns the canned fallback message
in the current conversation language, persists exactly the state whose
history gained the user message followed by that fallback reply, and
leaves language, registration fields, `completed`, and the version store
untouched (the only side effect is the conversation save).  The fallback is
the English apology exactly when `language == "en"` and the German one
otherwise. -/
theorem model_failure_fallback (now pe msg : String) (st : ConversationState) (dir : RegDir)
    (hcount : (st.messages.filter (fun m => m.role = .str "user")).length ≤ 19) :
    processMessage now (.error ()) pe msg "" (some st) dir =
      .ok (.str (fallback_message st.language),
        { st with
            last_activity := .str now
            updated_at := .str now
            messages := (st.messages ++ [⟨.str "user", .str msg, .str now⟩]) ++
              [⟨.str "assistant", .str (fallback_message st.language), .str now⟩] },
        dir,
        [.storeSave { st with
            last_activity := .str now
            updated_at := .str now
            messages := (st.messages ++ [⟨.str "user", .str msg, .str now⟩]) ++
              [⟨.str "assistant", .str (fallback_message st.language), .str now⟩] }]) ∧
    (st.language = .str "en" →
      fallback_message st.language =
        "I\x27m sorry, I\x27m having a technical issue right now. Please try again in a moment or contact us directly.") ∧
    (st.language ≠ .str "en" →
      fallback_message st.language =
        "Entschuldigung, ich habe gerade ein technisches Problem. Bitte versuche es gleich nochmal oder kontaktiere uns direkt.") := by
  refine ⟨?_, fun h => by simp [fallback_message, h], fun h => by simp [fallback_message, h]⟩
  have hguard : ¬ (((st.messages ++ [(⟨.str "user", .str msg, .str now⟩ : ChatMessage)]).filter
      (fun m => m.role = .str "user")).length > MAX_USER_MESSAGES) := by
    rw [List.filter_append, List.length_append]
    have hone : (([⟨.str "user", .str msg, .str now⟩] : List ChatMessage).filter
        (fun m => m.role = .str "user")).length = 1 := by simp
    rw [hone]
    simp only [MAX_USER_MESSAGES]
    omega
  simp only [processMessage, turnEntryState, ne_eq, not_true_eq_false, if_false, reduceIte]
  rw [if_neg hguard, handler_error_fallback]
  rfl

/-! ## C4 — completion is a one-way latch -/

theorem countAdmin_append (a b : List Event) :
    countAdmin (a ++ b) = countAdmin a + countAdmin b := by
  simp [countAdmin, List.filter_append]

theorem countV1_append (a b : List Event) :
    countV1 (a ++ b) = countV1 a + countV1 b := by
  simp [countV1, List.filter_append]

theorem countAdmin_storeSave (st : ConversationState) :
    countAdmin [Event.storeSave st] = 0 := rfl

theorem countV1_storeSave (st : ConversationState) :
    countV1 [Event.storeSave st] = 0 := rfl

/-- No single field update ever touches the `completed` latch. -/
theorem applyUpdate_completed (st : ConversationState) (k : String) (v : Json) :
    (applyUpdate st k v).completed = st.completed := by
  unfold applyUpdate
  by_cases h0 : v = Json.null
  · rw [if_pos h0]
  · rw [if_neg h0]
    by_cases h1 : k = "child.fullName"
    · rw [if_pos h1]
    · rw [if_neg h1]
      by_cases h2 : k = "child.dateOfBirth"
      · rw [if_pos h2]
      · rw [if_neg h2]
        by_cases h3 : k = "child.specialNeeds"
        · rw [if_pos h3]
        · rw [if_neg h3]
          by_cases h4 : k = "parentGuardian.fullName"
          · rw [if_pos h4]
          · rw [if_neg h4]
            by_cases h5 : k = "parentGuardian.streetAddress"
            · rw [if_pos h5]
            · rw [if_neg h5]
              by_cases h6 : k = "parentGuardian.postalCode"
              · rw [if_pos h6]
              · rw [if_neg h6]
                by_cases h7 : k = "parentGuardian.city"
                · rw [if_pos h7]
                · rw [if_neg h7]
                  by_cases h8 : k = "parentGuardian.phone"
                  · rw [if_pos h8]
                  · rw [if_neg h8]
                    by_cases h9 : k = "parentGuardian.email"
                    · rw [if_pos h9]
                    · rw [if_neg h9]
                      by_cases h10 : k = "emergencyContact.fullName"
                      · rw [if_pos h10]
                      · rw [if_neg h10]
                        by_cases h11 : k = "emergencyContact.phone"
                        · rw [if_pos h11]
                        · rw [if_neg h11]
                          by_cases h12 : k = "booking.playgroupTypes"
                          · rw [if_pos h12]
                            cases v <;> rfl
                          · rw [if_neg h12]
                            by_cases h13 : k = "booking.selectedDays"
                            · rw [if_pos h13]
                              cases v <;> rfl
                            · rw [if_neg h13]

theorem apply_updates_completed (updates : PyDict) :
    ∀ st : ConversationState, (apply_updates st updates).completed = st.completed := by
  induction updates with
  | nil => intro st; rfl
  | cons kv rest ih =>
    intro st
    show (apply_updates (applyUpdate st kv.1 kv.2) rest).completed = _
    rw [ih (applyUpdate st kv.1 kv.2), applyUpdate_completed]

/-- The update sub-flow preserves `completed` and issues neither a
version-1 snapshot nor an admin notification. -/
theorem handleRegistrationUpdate_shape (now : String) (st : ConversationState)
    (updates : PyDict) (dir : RegDir) (out : ConversationState × RegDir × List Event)
    (h : handleRegistrationUpdate now st updates dir = .ok out) :
    out.1.completed = st.completed ∧ countAdmin out.2.2 = 0 ∧ countV1 out.2.2 = 0 := by
  simp only [handleRegistrationUpdate] at h
  split at h
  · cases h
    exact ⟨apply_updates_completed updates st, rfl, rfl⟩
  · split at h
    · exact Except.noConfusion h
    · cases h
      exact ⟨apply_updates_completed updates st, rfl, rfl⟩

set_option maxHeartbeats 1600000 in
/-- A post-completion turn without the `new_child` intent preserves
`completed` and issues neither a version-1 snapshot nor an admin
notification. -/
theorem handlePostCompletion_shape (model : Except Unit PyDict) (now : String)
    (st : ConversationState) (dir : RegDir)
    (out : Json × ConversationState × RegDir × List Event)
    (hnc : noNewChildB model = true)
    (h : handlePostCompletion model now st dir = .ok out) :
    out.2.1.completed = st.completed ∧ countAdmin out.2.2.2 = 0 ∧ countV1 out.2.2.2 = 0 := by
  cases model with
  | error e =>
    cases h
    exact ⟨rfl, rfl, rfl⟩
  | ok parsed =>
    have hint : (pyGet parsed "intent").getD (.str "question") ≠ Json.str "new_child" := by
      simpa [noNewChildB, intentOf] using hnc
    simp only [handlePostCompletion] at h
    by_cases hI : (pyGet parsed "intent").getD (.str "question") = Json.str "update"
    · rw [if_pos hI] at h
      cases hu : updatesOf parsed with
      | error e =>
        simp only [hu] at h
        exact Except.noConfusion h
      | ok updates =>
        simp only [hu] at h
        by_cases ha : updates.any (fun kv => kv.2 ≠ .null) = true
        · rw [if_pos ha] at h
          cases hr : handleRegistrationUpdate now (postTurnState parsed st) updates dir with
          | error e =>
            simp only [hr] at h
            exact Except.noConfusion h
          | ok out2 =>
            obtain ⟨st2, dir2, evs2⟩ := out2
            simp only [hr] at h
            cases h
            exact handleRegistrationUpdate_shape now (postTurnState parsed st) updates dir
              (st2, dir2, evs2) hr
        · rw [if_neg ha] at h
          cases h
          exact ⟨rfl, rfl, rfl⟩
    · rw [if_neg hI] at h
      rw [if_neg hint] at h
      cases h
      exact ⟨rfl, rfl, rfl⟩

set_option maxHeartbeats 1600000 in
/-- An active-registration turn fires the snapshot/notification at most
once, only while flipping `completed` to true; a turn that starts with
`completed` truthy fires nothing. -/
theorem handleRegistration_shape (model : Except Unit PyDict) (now : String)
    (st : ConversationState) (dir : RegDir)
    (out : Json × ConversationState × RegDir × List Event)
    (h : handleRegistration model now st dir = .ok out) :
    countAdmin out.2.2.2 ≤ 1 ∧ countV1 out.2.2.2 ≤ 1 ∧
    ((countAdmin out.2.2.2 = 0 ∧ countV1 out.2.2.2 = 0) ∨ pyBool out.2.1.completed = true) ∧
    (pyBool st.completed = true →
      countAdmin out.2.2.2 = 0 ∧ countV1 out.2.2.2 = 0 ∧ pyBool out.2.1.completed = true) := by
  cases model with
  | error e =>
    cases h
    exact ⟨by simp [countAdmin], by simp [countV1], Or.inl ⟨rfl, rfl⟩, fun hc => ⟨rfl, rfl, hc⟩⟩
  | ok parsed =>
    simp only [handleRegistration] at h
    cases hu : updatesOf parsed with
    | error e =>
      simp only [hu] at h
      exact Except.noConfusion h
    | ok updates =>
      simp only [hu] at h
      have hpres : (registrationTurnState parsed updates st).completed = st.completed :=
        apply_updates_completed updates st
      by_cases hlatch : (pyBool ((pyGet parsed "registration_complete").getD (.bool false)) &&
          !pyBool (registrationTurnState parsed updates st).completed) = true
      · rw [if_pos hlatch] at h
        cases hs : save_registration (completedTurnState parsed updates st) dir now with
        | error e =>
          simp only [hs] at h
          exact Except.noConfusion h
        | ok out2 =>
          obtain ⟨dir2, key2, ver2⟩ := out2
          simp only [hs] at h
          cases h
          refine ⟨by simp [countAdmin], by simp [countV1], Or.inr rfl, fun hc => ?_⟩
          exfalso
          simp only [Bool.and_eq_true, Bool.not_eq_true'] at hlatch
          rw [hpres, hc] at hlatch
          exact Bool.noConfusion hlatch.2
      · rw [if_neg hlatch] at h
        cases h
        refine ⟨by simp [countAdmin], by simp [countV1], Or.inl ⟨rfl, rfl⟩, fun hc => ⟨rfl, rfl, ?_⟩⟩
        show pyBool (registrationTurnState parsed updates st).completed = true
        rw [hpres]
        exact hc

theorem turnEntryState_completed (now msg iid : String) (st : ConversationState) :
    (turnEntryState now msg iid st).completed = st.completed := by
  unfold turnEntryState
  by_cases hiid : iid ≠ "" <;> simp [hiid]

theorem turnEntryState_loop_escalated (now msg iid : String) (st : ConversationState) :
    (turnEntryState now msg iid st).loop_escalated = st.loop_escalated := by
  unfold turnEntryState
  by_cases hiid : iid ≠ "" <;> simp [hiid]

set_option maxHeartbeats 1600000 in
/-- One processed turn issues at most one version-1 snapshot and at most
one admin notification; when either fires, the persisted state has
`completed` truthy; and a turn entered with `completed` truthy (and no
`new_child` intent) issues neither and leaves `completed` truthy. -/
theorem processMessage_step (now : String) (model : Except Unit PyDict)
    (pe msg : String) (st : ConversationState) (dir : RegDir)
    (out : Json × ConversationState × RegDir × List Event)
    (hnc : noNewChildB model = true)
    (h : processMessage now model pe msg "" (some st) dir = .ok out) :
    countAdmin out.2.2.2 ≤ 1 ∧ countV1 out.2.2.2 ≤ 1 ∧
    ((countAdmin out.2.2.2 = 0 ∧ countV1 out.2.2.2 = 0) ∨ pyBool out.2.1.completed = true) ∧
    (pyBool st.completed = true →
      countAdmin out.2.2.2 = 0 ∧ countV1 out.2.2.2 = 0 ∧ pyBool out.2.1.completed = true) := by
  simp only [processMessage, turnEntryState_completed, turnEntryState_loop_escalated] at h
  by_cases hg : (((turnEntryState now msg "" st).messages.filter
      (fun m => m.role = .str "user")).length > MAX_USER_MESSAGES)
  · rw [if_pos hg] at h
    cases hle : st.loop_escalated with
    | none =>
      simp only [hle] at h
      exact Except.noConfusion h
    | some b =>
      simp only [hle] at h
      cases b with
      | false =>
        cases h
        refine ⟨by simp [countAdmin], by simp [countV1],
          Or.inl ⟨by simp [countAdmin], by simp [countV1]⟩,
          fun hc => ⟨by simp [countAdmin], by simp [countV1], ?_⟩⟩
        show pyBool (turnEntryState now msg "" st).completed = true
        rw [turnEntryState_completed]
        exact hc
      | true =>
        cases h
        refine ⟨by simp [countAdmin], by simp [countV1],
          Or.inl ⟨by simp [countAdmin], by simp [countV1]⟩,
          fun hc => ⟨by simp [countAdmin], by simp [countV1], ?_⟩⟩
        show pyBool (turnEntryState now msg "" st).completed = true
        rw [turnEntryState_completed]
        exact hc
  · rw [if_neg hg] at h
    by_cases hcomp : pyBool st.completed = true
    · rw [if_pos hcomp] at h
      cases hh : handlePostCompletion model now (turnEntryState now msg "" st) dir with
      | error e =>
        simp only [hh] at h
        exact Except.noConfusion h
      | ok out2 =>
        obtain ⟨reply2, st2, dir2, evs2⟩ := out2
        simp only [hh] at h
        cases h
        have hshape := handlePostCompletion_shape model now (turnEntryState now msg "" st) dir
          (reply2, st2, dir2, evs2) hnc hh
        have hs1 : st2.completed = (turnEntryState now msg "" st).completed := hshape.1
        have hs2 : countAdmin evs2 = 0 := hshape.2.1
        have hs3 : countV1 evs2 = 0 := hshape.2.2
        have hc2 : st2.completed = st.completed := by
          rw [hs1, turnEntryState_completed]
        refine ⟨?_, ?_, Or.inl ⟨?_, ?_⟩, fun _ => ⟨?_, ?_, ?_⟩⟩
        · simp only [countAdmin_append, countAdmin_storeSave, hs2]
          try omega
        · simp only [countV1_append, countV1_storeSave, hs3]
          try omega
        · simp only [countAdmin_append, countAdmin_storeSave, hs2]
          try omega
        · simp only [countV1_append, countV1_storeSave, hs3]
          try omega
        · simp only [countAdmin_append, countAdmin_storeSave, hs2]
          try omega
        · simp only [countV1_append, countV1_storeSave, hs3]
          try omega
        · show pyBool st2.completed = true
          rw [hc2]
          exact hcomp
    · rw [if_neg hcomp] at h
      cases hh : handleRegistration model now (turnEntryState now msg "" st) dir with
      | error e =>
        simp only [hh] at h
        exact Except.noConfusion h
      | ok out2 =>
        obtain ⟨reply2, st2, dir2, evs2⟩ := out2
        simp only [hh] at h
        cases h
        have hshape := handleRegistration_shape model now (turnEntryState now msg "" st) dir
          (reply2, st2, dir2, evs2) hh
        have hs1 : countAdmin evs2 ≤ 1 := hshape.1
        have hs2 : countV1 evs2 ≤ 1 := hshape.2.1
        have hs3 : (countAdmin evs2 = 0 ∧ countV1 evs2 = 0) ∨ pyBool st2.completed = true :=
          hshape.2.2.1
        refine ⟨?_, ?_, ?_, fun hc => absurd hc hcomp⟩
        · simp only [countAdmin_append, countAdmin_storeSave]
          omega
        · simp only [countV1_append, countV1_storeSave]
          omega
        · rcases hs3 with ⟨hz1, hz2⟩ | hlat
          · exact Or.inl ⟨by simp only [countAdmin_append, countAdmin_storeSave, hz1]; try omega,
              by simp only [countV1_append, countV1_storeSave, hz2]; try omega⟩
          · exact Or.inr hlat

/-- Once the latch is set, a whole trace without `new_child` turns issues
no version-1 snapshot and no admin notification at all, and the latch
stays set. -/
theorem runTrace_completed (pe : String) :
    ∀ (turns : List (Except Unit PyDict)) (st : ConversationState) (dir : RegDir),
      pyBool st.completed = true → turns.all noNewChildB = true →
      countAdmin (runTrace pe turns st dir).2.2 = 0 ∧
      countV1 (runTrace pe turns st dir).2.2 = 0 := by
  intro turns
  induction turns with
  | nil =>
    intro st dir _ _
    exact ⟨rfl, rfl⟩
  | cons r rs ih =>
    intro st dir hc hall
    simp only [List.all_cons, Bool.and_eq_true] at hall
    simp only [runTrace]
    cases hp : processMessage "t" r pe "m" "" (some st) dir with
    | error e =>
      simp only [hp]
      exact ih st dir hc hall.2
    | ok out =>
      obtain ⟨r4, st4, dir4, evs4⟩ := out
      simp only [hp]
      have hstep := processMessage_step "t" r pe "m" st dir (r4, st4, dir4, evs4) hall.1 hp
      have hlat := hstep.2.2.2 hc
      have hz1 : countAdmin evs4 = 0 := hlat.1
      have hz2 : countV1 evs4 = 0 := hlat.2.1
      have hc4 : pyBool st4.completed = true := hlat.2.2
      have hrest := ih st4 dir4 hc4 hall.2
      constructor
      · simp only [countAdmin_append, hz1, hrest.1]
      · simp only [countV1_append, hz2, hrest.2]

/-- C4: over every sequence of processed turns on one conversation in which
no turn carries the `new_child` intent (the post-completion reset that
legitimately starts a fresh registration), the version-1 snapshot
(`save_registration`) and the admin notification (`notify_admin`) are each
issued at most once in total — however many turns report
`registration_complete: true`, consecutive or not: once `completed` is set
the completion transition is never re-entered. -/
theorem completion_latch_at_most_once (pe : String) (turns : List (Except Unit PyDict))
    (st : ConversationState) (dir : RegDir) (hall : turns.all noNewChildB = true) :
    countAdmin (runTrace pe turns st dir).2.2 ≤ 1 ∧
    countV1 (runTrace pe turns st dir).2.2 ≤ 1 := by
  revert hall
  induction turns generalizing st dir with
  | nil =>
    intro _
    exact ⟨Nat.zero_le 1, Nat.zero_le 1⟩
  | cons r rs ih =>
    intro hall
    simp only [List.all_cons, Bool.and_eq_true] at hall
    simp only [runTrace]
    cases hp : processMessage "t" r pe "m" "" (some st) dir with
    | error e =>
      simp only [hp]
      exact ih st dir hall.2
    | ok out =>
      obtain ⟨r4, st4, dir4, evs4⟩ := out
      simp only [hp]
      have hstep := processMessage_step "t" r pe "m" st dir (r4, st4, dir4, evs4) hall.1 hp
      have hb1 : countAdmin evs4 ≤ 1 := hstep.1
      have hb2 : countV1 evs4 ≤ 1 := hstep.2.1
      rcases hstep.2.2.1 with ⟨hz1, hz2⟩ | hlat
      · have hrest := ih st4 dir4 hall.2
        constructor
        · simp only [countAdmin_append, hz1]
          omega
        · simp only [countV1_append, hz2]
          omega
      · have hrest := runTrace_completed pe rs st4 dir4 hlat hall.2
        constructor
        · simp only [countAdmin_append, hrest.1]
          omega
        · simp only [countV1_append, hrest.2]
          omega

theorem completion_latch_at_most_once_witness :
    (([.ok completeParsed, .ok completeParsed, .ok completeParsed] :
        List (Except Unit PyDict)).all noNewChildB = true) ∧
    countAdmin (runTrace "p@e.com" [.ok completeParsed, .ok completeParsed, .ok completeParsed]
      freshState {}).2.2 ≤ 1 ∧
    countV1 (runTrace "p@e.com" [.ok completeParsed, .ok completeParsed, .ok completeParsed]
      freshState {}).2.2 ≤ 1 :=
  ⟨by decide,
   completion_latch_at_most_once "p@e.com"
     [.ok completeParsed, .ok completeParsed, .ok completeParsed] freshState {} (by decide)⟩

theorem model_failure_fallback_witness :
    ((freshState.messages.filter (fun m => m.role = .str "user")).length ≤ 19) ∧
    processMessage "t1" (.error ()) "p@e.com" "Hallo" "" (some freshState) {} =
      .ok (.str (fallback_message freshState.language),
        { freshState with
            last_activity := .str "t1"
            updated_at := .str "t1"
            messages := (freshState.messages ++ [⟨.str "user", .str "Hallo", .str "t1"⟩]) ++
              [⟨.str "assistant", .str (fallback_message freshState.language), .str "t1"⟩] },
        {},
        [.storeSave { freshState with
            last_activity := .str "t1"
            updated_at := .str "t1"
            messages := (freshState.messages ++ [⟨.str "user", .str "Hallo", .str "t1"⟩]) ++
              [⟨.str "assistant", .str (fallback_message freshState.language), .str "t1"⟩] }]) :=
  ⟨by decide,
   (model_failure_fallback "t1" "p@e.com" "Hallo" freshState {} (by decide)).1⟩

end MeisterEder
